import Mathlib

/-!
Verification of the review-agent workflow script (`review_agent.py`).

The script is a linear orchestration: collect changed files, collect
documentation, call an LLM, extract a JSON object from the reply, post a
comment, then merge or label the pull request.  We embed each step as a pure
Lean function; external calls (content fetches, the merge call, the label
lookup) are passed in as explicit results, so that the control flow and the
string and JSON processing of the script are modelled exactly.
-/

namespace ReviewAgent

/-! ## Characters and small helpers -/

/-- The opening brace character, written via its code point. -/
def braceOpen : Char := Char.ofNat 123

/-- The closing brace character, written via its code point. -/
def braceClose : Char := Char.ofNat 125

/-- ASCII decimal digit test. -/
def isDigit (c : Char) : Bool := '0' ≤ c && c ≤ '9'

/-- JSON whitespace characters (space, tab, line feed, carriage return). -/
def isJsonWs (c : Char) : Bool := c == ' ' || c == '\t' || c == '\n' || c == '\r'

/-- Skip JSON whitespace. -/
def skipWs (cs : List Char) : List Char := cs.dropWhile isJsonWs

/-- Numeric value of a list of decimal digits. -/
def digitsVal (ds : List Char) : Nat :=
  ds.foldl (fun acc c => acc * 10 + (c.toNat - '0'.toNat)) 0

/-- Python `str.upper` restricted to ASCII letters, applied to one character. -/
def pyUpperChar (c : Char) : Char :=
  if 'a' ≤ c ∧ c ≤ 'z' then Char.ofNat (c.toNat - 32) else c

/-- Python `str.upper` restricted to ASCII letters. -/
def pyUpper (s : String) : String := ⟨s.data.map pyUpperChar⟩

/-! ## Greedy brace-delimited extraction

The script extracts the reviewed JSON with `re.search(r"\{.*\}", raw, re.S)`:
the match, when it exists, runs from the first opening brace that is followed
by some closing brace up to the last closing brace of the whole text. -/

/-- The suffix of `cs` starting at the first occurrence of `c`, if any. -/
def fromFirst (c : Char) : List Char → Option (List Char)
  | [] => none
  | a :: as => if a = c then some (a :: as) else fromFirst c as

/-- The prefix of `cs` ending at the last occurrence of `c` (inclusive), if any. -/
def upToLast (c : Char) (cs : List Char) : Option (List Char) :=
  match fromFirst c cs.reverse with
  | none => none
  | some suf => some suf.reverse

/-- The greedy `re.search` of a brace-delimited span: from the first opening
brace to the last closing brace after it; `none` when no such span exists. -/
def extractJson (s : String) : Option String :=
  match fromFirst braceOpen s.data with
  | none => none
  | some suf =>
    match suf with
    | [] => none
    | b :: rest =>
      match upToLast braceClose rest with
      | none => none
      | some pre => some ⟨b :: pre⟩

/-- The reply text contains a brace-delimited span: an opening brace with a
closing brace somewhere after it. -/
def hasBraceSpan (s : String) : Prop :=
  ∃ l m r, s.data = l ++ braceOpen :: m ++ braceClose :: r

/-! ## JSON values and `json.loads`

The script parses the extracted span with `json.loads`.  We embed the parsed
values exactly: numbers are kept as exact decimals (mantissa times a power of
ten) together with a flag recording whether the literal was an integer
literal, since Python distinguishes `int` from `float` when coercing and
printing; `NaN` and the infinities (accepted by `json.loads`) get their own
constructors.  Objects are Python dicts: keys are unique, a duplicate key in
the input keeps its first position and takes the last value. -/

inductive Json where
  | null
  | bool (b : Bool)
  | num (isInt : Bool) (mant : Int) (exp10 : Int)
  | nan
  | inf (neg : Bool)
  | str (s : String)
  | arr (elems : List Json)
  | obj (fields : List (String × Json))

/-- Value of a hexadecimal digit, if the character is one. -/
def hexVal (c : Char) : Option Nat :=
  if '0' ≤ c ∧ c ≤ '9' then some (c.toNat - '0'.toNat)
  else if 'a' ≤ c ∧ c ≤ 'f' then some (c.toNat - 'a'.toNat + 10)
  else if 'A' ≤ c ∧ c ≤ 'F' then some (c.toNat - 'A'.toNat + 10)
  else none

/-- Simple one-character JSON string escapes. -/
def simpleEsc (e : Char) : Option Char :=
  if e = '"' then some '"'
  else if e = '\\' then some '\\'
  else if e = '/' then some '/'
  else if e = 'b' then some (Char.ofNat 8)
  else if e = 'f' then some (Char.ofNat 12)
  else if e = 'n' then some '\n'
  else if e = 'r' then some '\r'
  else if e = 't' then some '\t'
  else none

/-- Body of a JSON string literal, after the opening quote: decodes escapes up
to the closing quote and returns the decoded characters and the remaining
input.  `\uXXXX` escapes combine surrogate pairs into one code point; the fuel
only bounds recursion depth and is never exhausted when it starts at the input
length plus one. -/
def parseStringBody : Nat → List Char → Option (List Char × List Char)
  | 0, _ => none
  | fuel + 1, cs =>
    match cs with
    | [] => none
    | c :: rest =>
      if c = '"' then some ([], rest)
      else if c = '\\' then
        match rest with
        | [] => none
        | e :: rest1 =>
          match simpleEsc e with
          | some ch =>
            match parseStringBody fuel rest1 with
            | some (s, r) => some (ch :: s, r)
            | none => none
          | none =>
            if e = 'u' then
              match rest1 with
              | h1 :: h2 :: h3 :: h4 :: rest2 =>
                match hexVal h1, hexVal h2, hexVal h3, hexVal h4 with
                | some a, some b, some c2, some d =>
                  let n := ((a * 16 + b) * 16 + c2) * 16 + d
                  if 0xD800 ≤ n ∧ n ≤ 0xDBFF then
                    match rest2 with
                    | '\\' :: 'u' :: g1 :: g2 :: g3 :: g4 :: rest3 =>
                      match hexVal g1, hexVal g2, hexVal g3, hexVal g4 with
                      | some a2, some b2, some c3, some d2 =>
                        let m := ((a2 * 16 + b2) * 16 + c3) * 16 + d2
                        if 0xDC00 ≤ m ∧ m ≤ 0xDFFF then
                          match parseStringBody fuel rest3 with
                          | some (s, r) =>
                            some (Char.ofNat (0x10000 + (n - 0xD800) * 0x400 + (m - 0xDC00)) :: s, r)
                          | none => none
                        else
                          match parseStringBody fuel rest2 with
                          | some (s, r) => some (Char.ofNat n :: s, r)
                          | none => none
                      | _, _, _, _ =>
                        match parseStringBody fuel rest2 with
                        | some (s, r) => some (Char.ofNat n :: s, r)
                        | none => none
                    | _ =>
                      match parseStringBody fuel rest2 with
                      | some (s, r) => some (Char.ofNat n :: s, r)
                      | none => none
                  else
                    match parseStringBody fuel rest2 with
                    | some (s, r) => some (Char.ofNat n :: s, r)
                    | none => none
                | _, _, _, _ => none
              | _ => none
            else none
      else if c.toNat < 0x20 then none
      else
        match parseStringBody fuel rest with
        | some (s, r) => some (c :: s, r)
        | none => none

/-- Exponent part of a JSON number, after the `e` or `E`. -/
def parseExpDigits (cs : List Char) : Option (Int × List Char) :=
  let (eneg, cs1) := match cs with
    | '+' :: r => (false, r)
    | '-' :: r => (true, r)
    | _ => (false, cs)
  let ds := cs1.takeWhile isDigit
  if ds.isEmpty then none
  else some ((if eneg then -(Int.ofNat (digitsVal ds)) else Int.ofNat (digitsVal ds)),
             cs1.dropWhile isDigit)

/-- Assemble a parsed JSON number from its sign, integer digits, fraction
digits and exponent; an integer literal is one with no fraction and no
exponent. -/
def mkNum (neg : Bool) (intDs fracDs : List Char) (expv : Option Int) : Json :=
  let mant0 : Int := Int.ofNat (digitsVal (intDs ++ fracDs))
  let mant : Int := if neg then -mant0 else mant0
  match fracDs, expv with
  | [], none => Json.num true mant 0
  | _, _ => Json.num false mant ((expv.getD 0) - Int.ofNat fracDs.length)

/-- A JSON number at the head of the input, following the tokenization of the
Python `json` module: `-?(0|[1-9][0-9]*)(\.[0-9]+)?([eE][+-]?[0-9]+)?`, plus
the `Infinity` spellings; a trailing malformed fraction or exponent is left
unconsumed, exactly as the longest-match tokenizer leaves it. -/
def parseNumber (cs : List Char) : Option (Json × List Char) :=
  let (neg, cs1) := match cs with
    | '-' :: r => (true, r)
    | _ => (false, cs)
  match cs1 with
  | [] => none
  | c :: rest1 =>
    if c = 'I' then
      match cs1 with
      | 'I' :: 'n' :: 'f' :: 'i' :: 'n' :: 'i' :: 't' :: 'y' :: r => some (Json.inf neg, r)
      | _ => none
    else if ¬ isDigit c then none
    else
      let (intDs, cs2) :=
        if c = '0' then ([c], rest1)
        else (cs1.takeWhile isDigit, cs1.dropWhile isDigit)
      let (fracDs, cs3) :=
        match cs2 with
        | '.' :: r =>
          let ds := r.takeWhile isDigit
          if ds.isEmpty then (([] : List Char), cs2) else (ds, r.dropWhile isDigit)
        | _ => ([], cs2)
      match cs3 with
      | e :: r =>
        if e = 'e' ∨ e = 'E' then
          match parseExpDigits r with
          | some (ev, cs4) => some (mkNum neg intDs fracDs (some ev), cs4)
          | none => some (mkNum neg intDs fracDs none, cs3)
        else some (mkNum neg intDs fracDs none, cs3)
      | [] => some (mkNum neg intDs fracDs none, cs3)

/-- Insert a key into a Python dict represented as an association list: a
duplicate key keeps its original position and takes the new value. -/
def insertKey : List (String × Json) → String → Json → List (String × Json)
  | [], k, v => [(k, v)]
  | (k1, v1) :: rest, k, v =>
    if k1 = k then (k, v) :: rest else (k1, v1) :: insertKey rest k v

/-- Parsing mode of the recursive JSON parser: a single value, the members of
an object (with the fields accumulated so far), or the elements of an array. -/
inductive PIn where
  | val
  | mems (acc : List (String × Json))
  | elems

/-- Result of one parsing mode. -/
inductive PRes where
  | val (j : Json)
  | kvs (l : List (String × Json))
  | elems (l : List Json)

/-- The recursive core of `json.loads`, written as a single fuel-indexed
function so that it is structurally recursive and evaluates inside the kernel.
Each recursive call consumes at least one input character first, so fuel equal
to the input length plus one is never exhausted. -/
def parseCore : Nat → PIn → List Char → Option (PRes × List Char)
  | 0, _, _ => none
  | fuel + 1, PIn.val, cs =>
    match cs with
    | [] => none
    | c :: rest =>
      if c = braceOpen then
        let cs1 := skipWs rest
        match cs1 with
        | [] => none
        | c1 :: r1 =>
          if c1 = braceClose then some (PRes.val (Json.obj []), r1)
          else
            match parseCore fuel (PIn.mems []) cs1 with
            | some (PRes.kvs kvs, r) => some (PRes.val (Json.obj kvs), r)
            | _ => none
      else if c = '[' then
        let cs1 := skipWs rest
        match cs1 with
        | ']' :: r1 => some (PRes.val (Json.arr []), r1)
        | _ =>
          match parseCore fuel PIn.elems cs1 with
          | some (PRes.elems xs, r) => some (PRes.val (Json.arr xs), r)
          | _ => none
      else if c = '"' then
        match parseStringBody cs.length rest with
        | some (s, r) => some (PRes.val (Json.str ⟨s⟩), r)
        | none => none
      else if c = 't' then
        match cs with
        | 't' :: 'r' :: 'u' :: 'e' :: r => some (PRes.val (Json.bool true), r)
        | _ => none
      else if c = 'f' then
        match cs with
        | 'f' :: 'a' :: 'l' :: 's' :: 'e' :: r => some (PRes.val (Json.bool false), r)
        | _ => none
      else if c = 'n' then
        match cs with
        | 'n' :: 'u' :: 'l' :: 'l' :: r => some (PRes.val Json.null, r)
        | _ => none
      else if c = 'N' then
        match cs with
        | 'N' :: 'a' :: 'N' :: r => some (PRes.val Json.nan, r)
        | _ => none
      else
        match parseNumber cs with
        | some (j, r) => some (PRes.val j, r)
        | none => none
  | fuel + 1, PIn.mems acc, cs =>
    match cs with
    | '"' :: rest =>
      match parseStringBody cs.length rest with
      | none => none
      | some (key, r1) =>
        match skipWs r1 with
        | ':' :: r2 =>
          match parseCore fuel PIn.val (skipWs r2) with
          | some (PRes.val v, r3) =>
            let acc1 := insertKey acc ⟨key⟩ v
            (match skipWs r3 with
             | [] => none
             | c :: r4 =>
               if c = ',' then parseCore fuel (PIn.mems acc1) (skipWs r4)
               else if c = braceClose then some (PRes.kvs acc1, r4)
               else none)
          | _ => none
        | _ => none
    | _ => none
  | fuel + 1, PIn.elems, cs =>
    match parseCore fuel PIn.val cs with
    | some (PRes.val v, r) =>
      (match skipWs r with
       | ',' :: r2 =>
         match parseCore fuel PIn.elems (skipWs r2) with
         | some (PRes.elems xs, r3) => some (PRes.elems (v :: xs), r3)
         | _ => none
       | ']' :: r2 => some (PRes.elems [v], r2)
       | _ => none)
    | _ => none

/-- `json.loads`: parse one JSON value, allowing surrounding whitespace and
requiring the whole input to be consumed. -/
def jsonLoads (s : String) : Option Json :=
  let cs := skipWs s.data
  match parseCore (cs.length + 1) PIn.val cs with
  | some (PRes.val v, r) => if (skipWs r).isEmpty then some v else none
  | _ => none

/-! ## Python coercions and rendering -/

/-- Python whitespace stripped by `int(str)`. -/
def isPySpace (c : Char) : Bool :=
  c == ' ' || c == '\t' || c == '\n' || c == '\r' || c == Char.ofNat 11 || c == Char.ofNat 12

/-- Python `int(s)` for a string: strip whitespace, optional sign, decimal
digits; anything else raises. -/
def pyIntOfString (s : String) : Option Int :=
  let cs := s.data.dropWhile isPySpace
  let cs := (cs.reverse.dropWhile isPySpace).reverse
  let (neg, ds) := match cs with
    | '-' :: r => (true, r)
    | '+' :: r => (false, r)
    | _ => (false, cs)
  if ds.isEmpty then none
  else if ds.all isDigit then
    some (if neg then -(Int.ofNat (digitsVal ds)) else Int.ofNat (digitsVal ds))
  else none

/-- Python `int(x)` applied to a parsed JSON value: integers unchanged, floats
truncated toward zero, booleans as 0 or 1, numeric strings parsed; `NaN`, the
infinities and every other shape raise. -/
def coerceInt : Json → Option Int
  | .num true m _ => some m
  | .num false m e =>
    some (if 0 ≤ e then m * (10 : Int) ^ e.toNat else Int.tdiv m ((10 : Int) ^ (-e).toNat))
  | .nan => none
  | .inf _ => none
  | .bool b => some (if b then 1 else 0)
  | .str s => pyIntOfString s
  | _ => none

/-- Left-pad a digit string with zeros to a given width. -/
def padLeftZeros (s : String) (k : Nat) : String :=
  ⟨List.replicate (k - s.data.length) '0' ++ s.data⟩

/-- Drop trailing zeros of a digit string, keeping at least one digit. -/
def trimZeros (s : String) : String :=
  let r := s.data.reverse.dropWhile (· = '0')
  ⟨(if r.isEmpty then ['0'] else r).reverse⟩

/-- Decimal rendering of a non-integer JSON number `mant · 10 ^ exp10`, as
Python prints simple floats. -/
def floatRepr (m : Int) (e : Int) : String :=
  if 0 ≤ e then toString (m * (10 : Int) ^ e.toNat) ++ ".0"
  else
    let k := (-e).toNat
    let mag := m.natAbs
    let ip := mag / 10 ^ k
    let fp := mag % 10 ^ k
    (if m < 0 then "-" else "") ++ toString ip ++ "." ++ trimZeros (padLeftZeros (toString fp) k)

mutual

/-- Python `repr` of a parsed JSON value, used when containers are rendered
inside an f-string; strings are shown in single quotes (without the escaping
Python would add for exotic contents). -/
def pythonRepr : Json → String
  | .null => "None"
  | .bool true => "True"
  | .bool false => "False"
  | .num true m _ => toString m
  | .num false m e => floatRepr m e
  | .nan => "nan"
  | .inf neg => if neg then "-inf" else "inf"
  | .str s => ⟨Char.ofNat 39 :: s.data ++ [Char.ofNat 39]⟩
  | .arr xs => "[" ++ pythonReprList xs ++ "]"
  | .obj kvs => "\x7b" ++ pythonReprKvs kvs ++ "\x7d"

/-- Comma-separated `repr` of list elements. -/
def pythonReprList : List Json → String
  | [] => ""
  | [x] => pythonRepr x
  | x :: xs => pythonRepr x ++ ", " ++ pythonReprList xs

/-- Comma-separated `repr` of dict entries. -/
def pythonReprKvs : List (String × Json) → String
  | [] => ""
  | [(k, v)] => ⟨Char.ofNat 39 :: k.data ++ [Char.ofNat 39]⟩ ++ ": " ++ pythonRepr v
  | (k, v) :: kvs =>
    ⟨Char.ofNat 39 :: k.data ++ [Char.ofNat 39]⟩ ++ ": " ++ pythonRepr v ++ ", " ++ pythonReprKvs kvs

end

/-- Python `str(x)` of a parsed JSON value, as interpolated by an f-string. -/
def pythonStr : Json → String
  | .str s => s
  | .num true m _ => toString m
  | .num false m e => floatRepr m e
  | .nan => "nan"
  | .inf neg => if neg then "-inf" else "inf"
  | .bool true => "True"
  | .bool false => "False"
  | .null => "None"
  | .arr xs => pythonRepr (.arr xs)
  | .obj kvs => pythonRepr (.obj kvs)

/-! ## Step 1 — changed files -/

/-- One record of the list the script builds for each reported changed file. -/
structure ChangedFile where
  filename : String
  status : String
  content : String
deriving DecidableEq

/-- Step 1 of the script: one record per file reported changed by the API, in
the reported order; a failed content fetch (modelled as `none`) is replaced by
the placeholder text instead of raising. -/
def collectChangedFiles (reported : List (String × String)) (fetch : String → Option String) :
    List ChangedFile :=
  reported.map fun fs =>
    { filename := fs.1
      status := fs.2
      content :=
        match fetch fs.1 with
        | some c => c
        | none => "Could not read file: " ++ fs.1 }

/-! ## Step 2 — documentation -/

/-- One entry of a directory listing, with its path and its `type` field. -/
structure DirEntry where
  path : String
  type : String

/-- Result of the `get_contents("docs", ...)` call when it does not raise: a
single file (a non-list) or a directory listing. -/
inductive ContentsResult where
  | file (content : String)
  | dir (entries : List DirEntry)

/-- The README part of the documentation text: the decoded README, or the
marker when fetching or decoding raised. -/
def readmeText : Option String → String
  | some c => "\n# README.md\n" ++ c
  | none => "\n(No README found)\n"

/-- The loop over directory entries: for each entry of type `"file"` append a
heading and the fetched content; a failed fetch (modelled as `none`) has
already appended the heading and makes the surrounding `try` abort, reported
in the boolean. -/
def docsLoop (fetch : String → Option String) : List DirEntry → String × Bool
  | [] => ("", false)
  | e :: rest =>
    if e.type = "file" then
      match fetch e.path with
      | some c =>
        let tr := docsLoop fetch rest
        ("\n\n# " ++ e.path ++ "\n" ++ c ++ tr.1, tr.2)
      | none => ("\n\n# " ++ e.path ++ "\n", true)
    else docsLoop fetch rest

/-- The docs part of the documentation text: the marker when listing `docs`
raised (modelled as `none`), nothing when the listing is not a list, and the
entry loop otherwise, with the marker appended when the loop raised midway. -/
def docsSection (docsDir : Option ContentsResult) (fetch : String → Option String) : String :=
  match docsDir with
  | none => "\n(No docs/ folder)\n"
  | some (.file _) => ""
  | some (.dir es) =>
    let tr := docsLoop fetch es
    tr.1 ++ (if tr.2 then "\n(No docs/ folder)\n" else "")

/-- Step 2 of the script: the assembled documentation text. -/
def docsText (readme : Option String) (docsDir : Option ContentsResult)
    (fetch : String → Option String) : String :=
  readmeText readme ++ docsSection docsDir fetch

/-! ## Steps 4 to 6 — parsing the reply, commenting, merging or labelling

The observable effects of the run after the LLM reply is received are recorded
as a trace of external actions; an unhandled exception ends the trace with an
error message, leaving the actions performed so far. -/

/-- An external action taken by the script after the LLM reply. -/
inductive Action where
  | postComment (body : String)
  | mergeAttempt (commitMessage : String)
  | createLabel (name color description : String)
  | addLabel (name : String)
deriving DecidableEq

/-- The observable outcome of a run: the actions performed in order, and the
unhandled error that ended the run, if any. -/
structure RunTrace where
  actions : List Action
  error : Option String
deriving DecidableEq

/-- Which of the two terminal branches of step 6 is taken. -/
inductive Branch where
  | merge
  | reject
deriving DecidableEq

/-- The decision of step 6 on the coerced score and the verdict string:
`score >= 80 and verdict.upper() == "ACCEPTED"` selects the merge branch,
everything else the reject branch. -/
def decideBranch (score : Int) (verdict : String) : Branch :=
  if 80 ≤ score ∧ pyUpper verdict = "ACCEPTED" then .merge else .reject

/-- The commit message of the squash merge. -/
def mergeMsg (score : Int) : String :=
  "Auto-merged by AI Reviewer (score: " ++ toString score ++ ")"

/-- The merge branch: attempt the merge; a failure is caught and reported as a
follow-up comment, and the run completes either way. -/
def mergeBranchTrace (comment : Action) (score : Int) (mergeRes : Except String Unit) : RunTrace :=
  match mergeRes with
  | .ok _ => ⟨[comment, .mergeAttempt (mergeMsg score)], none⟩
  | .error e =>
    ⟨[comment, .mergeAttempt (mergeMsg score),
      .postComment ("⚠️ Auto-merge failed: " ++ e)], none⟩

/-- The reject branch: look up the `"rejected"` label, create it with the
fixed color and description when the lookup raises, then attach it. -/
def rejectBranchTrace (comment : Action) (labelFound : Bool) : RunTrace :=
  if labelFound then ⟨[comment, .addLabel "rejected"], none⟩
  else ⟨[comment, .createLabel "rejected" "FF0000" "AI rejected this PR",
         .addLabel "rejected"], none⟩

/-- Step 6 of the script, after the comment was posted.  The condition
short-circuits as in Python: with `score < 80` the verdict is never touched;
with `score >= 80` a non-string verdict raises at `.upper()`. -/
def step6 (score : Int) (verdict : Json) (comment : Action) (mergeRes : Except String Unit)
    (labelFound : Bool) : RunTrace :=
  if 80 ≤ score then
    match verdict with
    | .str v =>
      match decideBranch score v with
      | .merge => mergeBranchTrace comment score mergeRes
      | .reject => rejectBranchTrace comment labelFound
    | _ => ⟨[comment], some "AttributeError: upper"⟩
  else rejectBranchTrace comment labelFound

/-- First-match lookup in a parsed object (keys are unique after parsing). -/
def objGet (kvs : List (String × Json)) (k : String) : Option Json :=
  match kvs with
  | [] => none
  | (k1, v) :: rest => if k1 = k then some v else objGet rest k

/-- Python `dict.get` with a default. -/
def objGetD (kvs : List (String × Json)) (k : String) (d : Json) : Json :=
  (objGet kvs k).getD d

/-- `int(result.get("score", 0))` of the script. -/
def scoreOf (kvs : List (String × Json)) : Option Int :=
  coerceInt (objGetD kvs "score" (Json.num true 0 0))

/-- `result.get("verdict", "REJECTED")` of the script. -/
def verdictOf (kvs : List (String × Json)) : Json :=
  objGetD kvs "verdict" (Json.str "REJECTED")

/-- The bulleted issue list `"\n".join([f"- \x7bi\x7d" for i in result["issues_found"]])`,
applied to the value of the key: iterating a list yields its elements, a
string its characters, a dict its keys; other values are not iterable and
raise. -/
def issuesMd : Json → Option String
  | .arr xs => some (String.intercalate "\n" (xs.map fun i => "- " ++ pythonStr i))
  | .str s => some (String.intercalate "\n" (s.data.map fun c => "- " ++ String.singleton c))
  | .obj kvs => some (String.intercalate "\n" (kvs.map fun kv => "- " ++ kv.1))
  | _ => none

/-- The body of the review comment posted in step 5. -/
def commentBody (score : Int) (verdict : Json) (summary : Json) (imd : String) : String :=
  "\n### 🤖 AI Review Result\n\n**Score:** " ++ toString score ++
  "/100  \n**Verdict:** **" ++ pythonStr verdict ++
  "**\n\n**Summary:**  \n" ++ pythonStr summary ++
  "\n\n**Issues Found:**  \n" ++ imd ++ "\n"

/-- Steps 5 and 6 on a parsed reply object: coerce the score, default the
verdict, format the comment (the `issues_found` and `summary` lookups raise
`KeyError` when absent), post it, then merge or label. -/
def afterParse (kvs : List (String × Json)) (mergeRes : Except String Unit)
    (labelFound : Bool) : RunTrace :=
  match scoreOf kvs with
  | none => ⟨[], some "ValueError: invalid literal for int"⟩
  | some score =>
    match objGet kvs "issues_found" with
    | none => ⟨[], some "KeyError: issues_found"⟩
    | some issues =>
      match issuesMd issues with
      | none => ⟨[], some "TypeError: not iterable"⟩
      | some imd =>
        match objGet kvs "summary" with
        | none => ⟨[], some "KeyError: summary"⟩
        | some summary =>
          let verdict := verdictOf kvs
          step6 score verdict
            (Action.postComment (commentBody score verdict summary imd)) mergeRes labelFound

/-- The run from the point where the LLM reply text is in hand: extract the
brace-delimited span (raising the format error when there is none), parse it
with `json.loads` (raising on invalid JSON), then run steps 5 and 6. -/
def runAfterLLM (raw : String) (mergeRes : Except String Unit) (labelFound : Bool) : RunTrace :=
  match extractJson raw with
  | none => ⟨[], some "Model did not return JSON format"⟩
  | some u =>
    match jsonLoads u with
    | none => ⟨[], some "json.decoder.JSONDecodeError"⟩
    | some (.obj kvs) => afterParse kvs mergeRes labelFound
    | some _ => ⟨[], some "AttributeError: get"⟩

/-- The trace contains a merge attempt. -/
def hasMergeAction (t : RunTrace) : Prop :=
  ∃ msg, Action.mergeAttempt msg ∈ t.actions

/-- The trace attaches the `"rejected"` label. -/
def hasRejectAction (t : RunTrace) : Prop :=
  Action.addLabel "rejected" ∈ t.actions

/-- Case-insensitive string equality, the comparison the specification
describes for the verdict. -/
def caseInsensitiveEq (a b : String) : Prop := pyUpper a = pyUpper b

/-! ## Concrete inputs used in the instance theorems -/

/-- A parsed reply with all four fields present and well typed. -/
def kvsAccept : List (String × Json) :=
  [("summary", Json.str "ok"), ("issues_found", Json.arr []),
   ("score", Json.num true 85 0), ("verdict", Json.str "ACCEPTED")]

/-- The reply text of the specification example: a JSON object embedded in
surrounding prose. -/
def rawAccept : String :=
  "Some text \x7b\"summary\":\"ok\",\"issues_found\":[],\"score\":85,\"verdict\":\"ACCEPTED\"\x7d trailing"

/-- The span the greedy extraction finds in `rawAccept`. -/
def jstrAccept : String :=
  "\x7b\"summary\":\"ok\",\"issues_found\":[],\"score\":85,\"verdict\":\"ACCEPTED\"\x7d"

/-- A reply whose JSON object lacks both `score` and `verdict`. -/
def rawNoKeys : String := "\x7b\"summary\":\"s\",\"issues_found\":[]\x7d"

/-- The object parsed from `rawNoKeys`. -/
def kvsNoKeys : List (String × Json) :=
  [("summary", Json.str "s"), ("issues_found", Json.arr [])]

/-- A reply whose JSON object lacks `issues_found`. -/
def rawNoIssues : String := "\x7b\"score\":85,\"verdict\":\"ACCEPTED\"\x7d"

/-- The object parsed from `rawNoIssues`. -/
def kvsNoIssues : List (String × Json) :=
  [("score", Json.num true 85 0), ("verdict", Json.str "ACCEPTED")]

/-- A content fetch that fails exactly on `b.py`. -/
def fetchFailB (p : String) : Option String :=
  if p = "b.py" then none else some "code"

/-- A content fetch that always fails. -/
def noFetch : String → Option String := fun _ => none

end ReviewAgent





namespace ReviewAgent

/-! ## Supporting lemmas -/

/-- Concatenation of strings concatenates their character lists. -/
theorem data_append (a b : String) : (a ++ b).data = a.data ++ b.data := by
  cases a
  cases b
  rfl

/-- A successful `fromFirst` splits the list at an occurrence of the
character. -/
theorem fromFirst_some (c : Char) (cs suf : List Char) (h : fromFirst c cs = some suf) :
    ∃ l rest, cs = l ++ c :: rest ∧ suf = c :: rest := by
  induction cs with
  | nil => simp [fromFirst] at h
  | cons a as ih =>
    by_cases hac : a = c
    · subst hac
      simp [fromFirst] at h
      exact ⟨[], as, rfl, h.symm⟩
    · rw [fromFirst, if_neg hac] at h
      obtain ⟨l, rest, h1, h2⟩ := ih h
      exact ⟨a :: l, rest, by rw [h1]; rfl, h2⟩

/-- A successful `upToLast` splits the list at an occurrence of the
character, returning the prefix up to it inclusive. -/
theorem upToLast_some (c : Char) (cs pre : List Char) (h : upToLast c cs = some pre) :
    ∃ m r, cs = m ++ c :: r ∧ pre = m ++ [c] := by
  unfold upToLast at h
  cases hf : fromFirst c cs.reverse with
  | none => rw [hf] at h; cases h
  | some suf =>
    rw [hf] at h
    injection h with h3
    obtain ⟨l, rest, h1, h2⟩ := fromFirst_some c cs.reverse suf hf
    refine ⟨rest.reverse, l.reverse, ?_, ?_⟩
    · have := congrArg List.reverse h1
      simpa using this
    · rw [← h3, h2]
      simp

/-- A successful extraction exhibits a brace-delimited span in the text. -/
theorem extractJson_some_span (s u : String) (h : extractJson s = some u) :
    hasBraceSpan s := by
  unfold extractJson at h
  cases h1 : fromFirst braceOpen s.data with
  | none => rw [h1] at h; cases h
  | some suf =>
    rw [h1] at h
    obtain ⟨l, rest, hs, hsuf⟩ := fromFirst_some _ _ _ h1
    subst hsuf
    dsimp only at h
    split at h
    · cases h
    · rename_i pre h2
      obtain ⟨m, r, hr, _⟩ := upToLast_some _ _ _ h2
      refine ⟨l, m, r, ?_⟩
      rw [hs, hr]
      simp

/-- An integer-valued `score` field makes the coercion of the script return
exactly that integer. -/
theorem scoreOf_int (kvs : List (String × Json)) (n : Int)
    (h : objGet kvs "score" = some (Json.num true n 0)) : scoreOf kvs = some n := by
  unfold scoreOf objGetD
  rw [h]
  rfl

/-- A string-valued `verdict` field is taken as is. -/
theorem verdictOf_str (kvs : List (String × Json)) (v : String)
    (h : objGet kvs "verdict" = some (Json.str v)) : verdictOf kvs = Json.str v := by
  unfold verdictOf objGetD
  rw [h]
  rfl

/-- With a string verdict, step 6 is exactly the two-branch decision. -/
theorem step6_str (score : Int) (v : String) (comment : Action) (mr : Except String Unit)
    (lf : Bool) :
    step6 score (Json.str v) comment mr lf =
      match decideBranch score v with
      | Branch.merge => mergeBranchTrace comment score mr
      | Branch.reject => rejectBranchTrace comment lf := by
  by_cases h : 80 ≤ score
  · simp [step6, h]
  · have hd : decideBranch score v = Branch.reject := by
      unfold decideBranch
      rw [if_neg]
      intro hc
      exact h hc.1
    simp [step6, h, hd]

/-! ## Claims -/

/-- C1: the decision step enters the merge branch if and only if the coerced
integer score is at least 80 and the verdict compares case-insensitively equal
to `"ACCEPTED"`; every other pair takes the reject branch, and once a parsed
reply with the four well-typed fields exists, exactly one of the two branches
executes, never both and never neither. -/
theorem c1_decision_step :
    (∀ (score : Int) (verdict : String),
       (decideBranch score verdict = Branch.merge ↔
          80 ≤ score ∧ caseInsensitiveEq verdict "ACCEPTED") ∧
       (decideBranch score verdict = Branch.reject ↔
          ¬ (80 ≤ score ∧ caseInsensitiveEq verdict "ACCEPTED"))) ∧
    (∀ (kvs : List (String × Json)) (mr : Except String Unit) (lf : Bool)
       (n : Int) (v : String) (issues : List Json) (sm : Json),
       objGet kvs "score" = some (Json.num true n 0) →
       objGet kvs "verdict" = some (Json.str v) →
       objGet kvs "issues_found" = some (Json.arr issues) →
       objGet kvs "summary" = some sm →
       (afterParse kvs mr lf).error = none ∧
       (hasMergeAction (afterParse kvs mr lf) ↔ decideBranch n v = Branch.merge) ∧
       (hasRejectAction (afterParse kvs mr lf) ↔ decideBranch n v = Branch.reject) ∧
       ¬ (hasMergeAction (afterParse kvs mr lf) ∧ hasRejectAction (afterParse kvs mr lf)) ∧
       (hasMergeAction (afterParse kvs mr lf) ∨ hasRejectAction (afterParse kvs mr lf))) := by
  constructor
  · intro score verdict
    have hup : pyUpper "ACCEPTED" = "ACCEPTED" := rfl
    by_cases h : 80 ≤ score ∧ pyUpper verdict = "ACCEPTED" <;>
      simp [decideBranch, caseInsensitiveEq, hup, h]
  · intro kvs mr lf n v issues sm h1 h2 h3 h4
    have hs := scoreOf_int kvs n h1
    have hv := verdictOf_str kvs v h2
    have hrun : afterParse kvs mr lf =
        step6 n (Json.str v)
          (Action.postComment
            (commentBody n (Json.str v) sm
              (issuesMd (Json.arr issues)).get!)) mr lf := by
      unfold afterParse
      rw [hs, h3, h4, hv]
      rfl
    rw [hrun, step6_str]
    cases hd : decideBranch n v with
    | merge =>
      cases mr <;>
        simp [mergeBranchTrace, hasMergeAction, hasRejectAction]
    | reject =>
      cases lf <;>
        simp [rejectBranchTrace, hasMergeAction, hasRejectAction]

/-- Instance of C1 at concrete inputs. -/
theorem c1_decision_step_witness :
    (decideBranch 85 "accepted" = Branch.merge ↔
       80 ≤ (85 : Int) ∧ caseInsensitiveEq "accepted" "ACCEPTED") ∧
    (afterParse kvsAccept (Except.ok ()) true).error = none ∧
    (hasMergeAction (afterParse kvsAccept (Except.ok ()) true) ↔
       decideBranch 85 "ACCEPTED" = Branch.merge) := by
  refine ⟨(c1_decision_step.1 85 "accepted").1, ?_, ?_⟩
  · exact (c1_decision_step.2 kvsAccept (Except.ok ()) true 85 "ACCEPTED" [] (Json.str "ok")
      rfl rfl rfl rfl).1
  · exact (c1_decision_step.2 kvsAccept (Except.ok ()) true 85 "ACCEPTED" [] (Json.str "ok")
      rfl rfl rfl rfl).2.1

/-- C2: when the reply contains no brace-delimited span, or the extracted span
is not valid JSON, the run aborts with a format error before any comment is
posted and before any merge or label action. -/
theorem c2_format_error_aborts (raw : String) (mr : Except String Unit) (lf : Bool)
    (h : ¬ hasBraceSpan raw ∨ ∃ u, extractJson raw = some u ∧ jsonLoads u = none) :
    (runAfterLLM raw mr lf).actions = [] ∧ (runAfterLLM raw mr lf).error.isSome := by
  cases h with
  | inl hno =>
    cases he : extractJson raw with
    | none => simp [runAfterLLM, he]
    | some u => exact absurd (extractJson_some_span raw u he) hno
  | inr hex =>
    obtain ⟨u, he, hp⟩ := hex
    simp [runAfterLLM, he, hp]

/-- Instance of C2 at a concrete reply whose span is not valid JSON. -/
theorem c2_format_error_aborts_witness :
    (runAfterLLM "\x7bnot json\x7d" (Except.ok ()) true).actions = [] ∧
    (runAfterLLM "\x7bnot json\x7d" (Except.ok ()) true).error.isSome :=
  c2_format_error_aborts "\x7bnot json\x7d" (Except.ok ()) true
    (Or.inr ⟨"\x7bnot json\x7d", rfl, rfl⟩)

end ReviewAgent

namespace ReviewAgent

/-- C3: the change collector yields one record per reported file, in the
reported order, with the placeholder content exactly when the fetch for that
file fails, and it never aborts on a failed fetch. -/
theorem c3_changed_files (reported : List (String × String)) (fetch : String → Option String) :
    (collectChangedFiles reported fetch).length = reported.length ∧
    ∀ (i : Nat) (p st : String), reported[i]? = some (p, st) →
      ∃ cf : ChangedFile, (collectChangedFiles reported fetch)[i]? = some cf ∧
        cf.filename = p ∧ cf.status = st ∧
        (fetch p = none → cf.content = "Could not read file: " ++ p) ∧
        (∀ c, fetch p = some c → cf.content = c) := by
  constructor
  · simp [collectChangedFiles]
  · intro i p st h
    have hm := List.getElem?_map
      (fun fs : String × String =>
        ChangedFile.mk fs.1 fs.2
          (match fetch fs.1 with
           | some c => c
           | none => "Could not read file: " ++ fs.1)) reported i
    rw [h] at hm
    refine ⟨_, hm, rfl, rfl, ?_, ?_⟩
    · intro hf
      simp only [hf]
    · intro c hc
      simp only [hc]

/-- Instance of C3 at a concrete file list whose second fetch fails. -/
theorem c3_changed_files_witness :
    (collectChangedFiles [("a.py", "modified"), ("b.py", "added")] fetchFailB).length =
      ([("a.py", "modified"), ("b.py", "added")] : List (String × String)).length ∧
    ∃ cf : ChangedFile,
      (collectChangedFiles [("a.py", "modified"), ("b.py", "added")] fetchFailB)[1]? =
        some cf ∧
      cf.filename = "b.py" ∧ cf.status = "added" ∧
      (fetchFailB "b.py" = none → cf.content = "Could not read file: " ++ "b.py") ∧
      (∀ c, fetchFailB "b.py" = some c → cf.content = c) :=
  ⟨(c3_changed_files _ fetchFailB).1,
   (c3_changed_files _ fetchFailB).2 1 "b.py" "added" rfl⟩

/-- C4 as stated is false on the code: for a parsed reply lacking both the
`score` and the `verdict` key, the decision step still runs (with the
defaults) and executes the reject branch. -/
theorem c4_counterexample :
    objGet kvsNoKeys "score" = none ∧
    objGet kvsNoKeys "verdict" = none ∧
    jsonLoads rawNoKeys = some (Json.obj kvsNoKeys) ∧
    (runAfterLLM rawNoKeys (Except.ok ()) false).error = none ∧
    Action.addLabel "rejected" ∈ (runAfterLLM rawNoKeys (Except.ok ()) false).actions := by
  refine ⟨rfl, rfl, rfl, rfl, ?_⟩
  decide

/-- C4, amended: when `score` or `verdict` is absent from the parsed reply the
script substitutes the defaults 0 and `"REJECTED"`; the decision step is still
evaluated and (with both keys absent) enters the reject branch, provided
comment formatting succeeded. -/
theorem c4_amended_defaults (kvs : List (String × Json)) (mr : Except String Unit) (lf : Bool)
    (hs : objGet kvs "score" = none) (hv : objGet kvs "verdict" = none) :
    scoreOf kvs = some 0 ∧ verdictOf kvs = Json.str "REJECTED" ∧
    ∀ issues sm, objGet kvs "issues_found" = some issues →
      objGet kvs "summary" = some sm →
      ∀ imd, issuesMd issues = some imd →
        (afterParse kvs mr lf).error = none ∧
        Action.addLabel "rejected" ∈ (afterParse kvs mr lf).actions ∧
        ¬ hasMergeAction (afterParse kvs mr lf) := by
  have hsc : scoreOf kvs = some 0 := by
    unfold scoreOf objGetD
    rw [hs]
    rfl
  have hvd : verdictOf kvs = Json.str "REJECTED" := by
    unfold verdictOf objGetD
    rw [hv]
    rfl
  refine ⟨hsc, hvd, ?_⟩
  intro issues sm h3 h4 imd h5
  have hrun : afterParse kvs mr lf =
      step6 0 (Json.str "REJECTED")
        (Action.postComment (commentBody 0 (Json.str "REJECTED") sm imd)) mr lf := by
    unfold afterParse
    simp only [hsc, h3, h5, h4, hvd]
  rw [hrun, step6_str]
  have hd : decideBranch 0 "REJECTED" = Branch.reject := by decide
  rw [hd]
  cases lf <;> simp [rejectBranchTrace, hasMergeAction]

/-- Instance of the amended C4 at the concrete keyless reply. -/
theorem c4_amended_defaults_witness :
    scoreOf kvsNoKeys = some 0 ∧ verdictOf kvsNoKeys = Json.str "REJECTED" ∧
    ((afterParse kvsNoKeys (Except.ok ()) false).error = none ∧
     Action.addLabel "rejected" ∈ (afterParse kvsNoKeys (Except.ok ()) false).actions ∧
     ¬ hasMergeAction (afterParse kvsNoKeys (Except.ok ()) false)) := by
  obtain ⟨a, b, c⟩ := c4_amended_defaults kvsNoKeys (Except.ok ()) false rfl rfl
  exact ⟨a, b, c (Json.arr []) (Json.str "s") rfl rfl "" rfl⟩

/-- C5: a parsed reply without the `issues_found` key makes the run fail
fatally before the comment is posted, so no comment, no merge and no label
action happens. -/
theorem c5_issues_key_required (raw u : String) (kvs : List (String × Json))
    (mr : Except String Unit) (lf : Bool)
    (he : extractJson raw = some u) (hp : jsonLoads u = some (Json.obj kvs))
    (hi : objGet kvs "issues_found" = none) :
    (runAfterLLM raw mr lf).actions = [] ∧ (runAfterLLM raw mr lf).error.isSome := by
  have hrun : runAfterLLM raw mr lf = afterParse kvs mr lf := by
    unfold runAfterLLM
    simp only [he, hp]
  rw [hrun]
  unfold afterParse
  cases hsc : scoreOf kvs with
  | none => exact ⟨rfl, rfl⟩
  | some n =>
    rw [hi]
    exact ⟨rfl, rfl⟩

/-- Instance of C5 at a concrete reply lacking `issues_found`. -/
theorem c5_issues_key_required_witness :
    (runAfterLLM rawNoIssues (Except.ok ()) true).actions = [] ∧
    (runAfterLLM rawNoIssues (Except.ok ()) true).error.isSome :=
  c5_issues_key_required rawNoIssues rawNoIssues kvsNoIssues (Except.ok ()) true rfl rfl rfl

/-- C6: on the specification example reply, the greedy extraction yields the
embedded object, the parsed result has score 85 and verdict ACCEPTED, and the
run attempts the merge. -/
theorem c6_example_reply_merges :
    extractJson rawAccept = some jstrAccept ∧
    jsonLoads jstrAccept = some (Json.obj kvsAccept) ∧
    scoreOf kvsAccept = some 85 ∧
    verdictOf kvsAccept = Json.str "ACCEPTED" ∧
    decideBranch 85 "ACCEPTED" = Branch.merge ∧
    (runAfterLLM rawAccept (Except.ok ()) true).error = none ∧
    Action.mergeAttempt (mergeMsg 85) ∈ (runAfterLLM rawAccept (Except.ok ()) true).actions := by
  refine ⟨rfl, rfl, rfl, rfl, by decide, rfl, ?_⟩
  decide

end ReviewAgent

namespace ReviewAgent

/-- C7: the documentation loader never raises; a failed README fetch leaves
the literal marker `(No README found)` in the bundle, and a failed or absent
`docs` directory listing leaves the literal marker `(No docs/ folder)`. -/
theorem c7_docs_markers (readme : Option String) (docsDir : Option ContentsResult)
    (fetch : String → Option String) :
    (readme = none →
       ∃ a b, (docsText readme docsDir fetch).data =
         a ++ "(No README found)".data ++ b) ∧
    (docsDir = none →
       ∃ a b, (docsText readme docsDir fetch).data =
         a ++ "(No docs/ folder)".data ++ b) := by
  constructor
  · rintro rfl
    exact ⟨"\n".data, '\n' :: (docsSection docsDir fetch).data, rfl⟩
  · rintro rfl
    refine ⟨(readmeText readme).data ++ "\n".data, "\n".data, ?_⟩
    show (readmeText readme ++ "\n(No docs/ folder)\n").data = _
    rw [data_append]
    have hlit : "\n(No docs/ folder)\n".data =
        '\n' :: ("(No docs/ folder)".data ++ "\n".data) := rfl
    rw [hlit]
    simp

/-- Instance of C7 with both the README fetch and the docs listing failing. -/
theorem c7_docs_markers_witness :
    (∃ a b, (docsText none none noFetch).data = a ++ "(No README found)".data ++ b) ∧
    (∃ a b, (docsText none none noFetch).data = a ++ "(No docs/ folder)".data ++ b) :=
  ⟨(c7_docs_markers none none noFetch).1 rfl,
   (c7_docs_markers none none noFetch).2 rfl⟩

/-- C8: when the decision selects the merge branch and the merge call fails,
the failure is caught and reported as an additional follow-up comment, and the
run completes without an unhandled error. -/
theorem c8_merge_failure_recovered (score : Int) (v : String) (body e : String) (lf : Bool)
    (h : decideBranch score v = Branch.merge) :
    step6 score (Json.str v) (Action.postComment body) (Except.error e) lf =
      ⟨[Action.postComment body, Action.mergeAttempt (mergeMsg score),
        Action.postComment ("⚠️ Auto-merge failed: " ++ e)], none⟩ := by
  rw [step6_str, h]
  rfl

/-- Instance of C8 at a concrete accepted review with a failing merge. -/
theorem c8_merge_failure_recovered_witness :
    step6 85 (Json.str "ACCEPTED") (Action.postComment "review") (Except.error "conflict") true =
      ⟨[Action.postComment "review", Action.mergeAttempt (mergeMsg 85),
        Action.postComment ("⚠️ Auto-merge failed: " ++ "conflict")], none⟩ :=
  c8_merge_failure_recovered 85 "ACCEPTED" "review" "conflict" true (by decide)

/-- C9: in the reject branch the run never calls merge; it attaches the
`"rejected"` label, first creating it with the fixed color and description
when the lookup fails. -/
theorem c9_reject_branch (score : Int) (v : String) (body : String) (mr : Except String Unit)
    (h : decideBranch score v = Branch.reject) :
    (step6 score (Json.str v) (Action.postComment body) mr false =
       ⟨[Action.postComment body,
         Action.createLabel "rejected" "FF0000" "AI rejected this PR",
         Action.addLabel "rejected"], none⟩) ∧
    (step6 score (Json.str v) (Action.postComment body) mr true =
       ⟨[Action.postComment body, Action.addLabel "rejected"], none⟩) ∧
    (∀ (lf : Bool) (msg : String),
       Action.mergeAttempt msg ∉ (step6 score (Json.str v) (Action.postComment body) mr lf).actions) := by
  have h1 : ∀ lf, step6 score (Json.str v) (Action.postComment body) mr lf =
      rejectBranchTrace (Action.postComment body) lf := by
    intro lf
    rw [step6_str, h]
  refine ⟨?_, ?_, ?_⟩
  · rw [h1]
    rfl
  · rw [h1]
    rfl
  · intro lf msg
    rw [h1]
    cases lf <;> simp [rejectBranchTrace]

/-- Instance of C9 at score 50 and verdict REJECTED with a failing label
lookup. -/
theorem c9_reject_branch_witness :
    (step6 50 (Json.str "REJECTED") (Action.postComment "review") (Except.ok ()) false =
       ⟨[Action.postComment "review",
         Action.createLabel "rejected" "FF0000" "AI rejected this PR",
         Action.addLabel "rejected"], none⟩) ∧
    (∀ (lf : Bool) (msg : String),
       Action.mergeAttempt msg ∉
         (step6 50 (Json.str "REJECTED") (Action.postComment "review") (Except.ok ()) lf).actions) :=
  ⟨(c9_reject_branch 50 "REJECTED" "review" (Except.ok ()) (by decide)).1,
   (c9_reject_branch 50 "REJECTED" "review" (Except.ok ()) (by decide)).2.2⟩

/-- C10: when the `docs` path is a single file (the contents call returns a
non-list), the docs part of the bundle is silently empty: neither the file
content nor the `(No docs/ folder)` marker appears. -/
theorem c10_docs_nonlist (readme : Option String) (c : String)
    (fetch : String → Option String) :
    docsSection (some (ContentsResult.file c)) fetch = "" ∧
    docsText readme (some (ContentsResult.file c)) fetch = readmeText readme := by
  refine ⟨rfl, ?_⟩
  show readmeText readme ++ "" = readmeText readme
  generalize readmeText readme = s
  cases s with
  | mk l =>
    show String.mk (l ++ "".data) = String.mk l
    simp

end ReviewAgent
